import Mathlib

/-!
Verification of the "You Are Amazing!" repository (isabelcabezasm/ise-is-amazing).

Part 1 embeds the frontend TypeScript pages (`app/amazing/page.tsx`,
`app/cloud` word-cloud page, `app/delete/page.tsx`) as Lean functions over
`List Char` / `String`, mirroring the JavaScript string operations
(`trim`, the regular-expression searches of `handleFileUpload`, template
literals of `handleSaveList`).

Part 2 is a model of the multilingual word-cloud rendering subsystem
(`api-python/main.py` and `api-python/multilingual_wordcloud_sentences.py`
are not part of the available sources; they are modelled from the
specification and from `api-python/FONTS.md`, which documents the Unicode
ranges, the font mapping, the configuration defaults and the HTTP error
mapping).
-/

/-- Whitespace test used to model the JavaScript `trim()` /
regular-expression class `\s` (and Python `strip()` in the rendering
model): the full ECMAScript WhiteSpace plus LineTerminator set — tab,
line feed, vertical tab, form feed, carriage return, space, no-break
space, the Ogham space mark U+1680, the Zs spaces U+2000 to U+200A,
the line and paragraph separators U+2028 and U+2029, the narrow
no-break space U+202F, the medium mathematical space U+205F, the
ideographic space U+3000 and the zero-width no-break space U+FEFF. -/
def isWsB (c : Char) : Bool :=
  c.toNat = 32 || c.toNat = 9 || c.toNat = 10 || c.toNat = 11 ||
  c.toNat = 12 || c.toNat = 13 || c.toNat = 160 || c.toNat = 0x1680 ||
  (0x2000 ≤ c.toNat ∧ c.toNat ≤ 0x200A) || c.toNat = 0x2028 ||
  c.toNat = 0x2029 || c.toNat = 0x202F || c.toNat = 0x205F ||
  c.toNat = 0x3000 || c.toNat = 0xFEFF

/-- JavaScript `String.prototype.trim`, on the code-point list of a string. -/
def jsTrim (l : List Char) : List Char :=
  ((l.dropWhile isWsB).reverse.dropWhile isWsB).reverse

/-- Default admin username of `app/delete/page.tsx` (line 29), used when
`NEXT_PUBLIC_ADMIN_USERNAME` is unset. -/
def validUsername (envU : Option String) : String := envU.getD "login_admin"

/-- Default admin password of `app/delete/page.tsx` (line 30), used when
`NEXT_PUBLIC_ADMIN_PASSWORD` is unset. -/
def validPassword (envP : Option String) : String := envP.getD "amazing_password_123"

/-- The authentication decision of `handleLogin` in `app/delete/page.tsx`
(lines 22-42): `isAuthenticated` becomes true exactly when both entered
credentials equal the configured constants. -/
def handleLogin (username password : String) (envU envP : Option String) : Bool :=
  (username == validUsername envU) && (password == validPassword envP)

/-- An HTTP request as assembled by the frontend `fetch` calls. -/
structure HttpRequest where
  url : String
  method : String
  headers : List (String × String)
  body : Option String
deriving DecidableEq

/-- `lib/api-config.ts`: base URL selection by environment. -/
def apiBaseUrl (dev : Bool) : String :=
  if dev then "http://localhost:8000"
  else "https://youareamazing-api.ambitiousmushroom-0229ef63.westus2.azurecontainerapps.io"

/-- `AMAZING_API_URL` from `lib/api-config.ts`. -/
def amazingApiUrl (dev : Bool) : String := apiBaseUrl dev ++ "/api/amazing"

/-- The DELETE request issued by `handleDeleteAll` in
`app/delete/page.tsx` (lines 44-70): `fetch(AMAZING_API_URL,
{ method: 'DELETE' })`. The username and password of the page state are
taken as arguments to express that the request does not depend on them:
the source closure reads neither, sends no headers and no body. -/
def handleDeleteAll (dev : Bool) (username password : String) : HttpRequest :=
  { url := amazingApiUrl dev
    method := "DELETE"
    headers := []
    body := none }

/-! ### Part 2: the multilingual word-cloud rendering model -/

/-- Modelled from the spec: the fixed set of script categories of the
missing module `api-python/multilingual_wordcloud_sentences.py`; the
constructors are the keys of the `font_mapping` documented in
`api-python/FONTS.md` (lines 54-66). -/
inductive ScriptCategory where
  | hebrew
  | arabic
  | armenian
  | bengali
  | georgian
  | cjk
  | devanagari
  | greek
  | cyrillic
  | latin
  | fallback
deriving DecidableEq

/-- Closed-interval membership test for a code point. -/
def inRange (c lo hi : Nat) : Bool := decide (lo ≤ c) && decide (c ≤ hi)

/-- Modelled from the spec: Unicode-range classification of a single code
point by the missing Script Classifier, with the ranges documented in
`api-python/FONTS.md` (lines 73-84), tested in the spec's order; code
points in no range (whitespace, punctuation, digits, unlisted scripts)
are unclassified. -/
def scriptOf (c : Nat) : Option ScriptCategory :=
  if inRange c 0x0590 0x05FF || inRange c 0xFB1D 0xFB4F then some ScriptCategory.hebrew
  else if inRange c 0x0600 0x06FF || inRange c 0x0750 0x077F || inRange c 0x08A0 0x08FF then
    some ScriptCategory.arabic
  else if inRange c 0x0530 0x058F || inRange c 0xFB13 0xFB17 then some ScriptCategory.armenian
  else if inRange c 0x0980 0x09FF then some ScriptCategory.bengali
  else if inRange c 0x10A0 0x10FF then some ScriptCategory.georgian
  else if inRange c 0x4E00 0x9FFF || inRange c 0x3040 0x309F || inRange c 0x30A0 0x30FF ||
      inRange c 0xAC00 0xD7AF then some ScriptCategory.cjk
  else if inRange c 0x0900 0x097F then some ScriptCategory.devanagari
  else if inRange c 0x0370 0x03FF || inRange c 0x1F00 0x1FFF then some ScriptCategory.greek
  else if inRange c 0x0400 0x04FF then some ScriptCategory.cyrillic
  else if inRange c 0x41 0x5A || inRange c 0x61 0x7A || inRange c 0xC0 0x24F then
    some ScriptCategory.latin
  else none

/-- Tally of one category in a list of classified code points. -/
def scTally : List ScriptCategory → ScriptCategory → Nat
  | [], _ => 0
  | d :: r, c => (if d = c then 1 else 0) + scTally r c

/-- Fold selecting the candidate with the strictly largest tally,
keeping the earlier candidate on ties. -/
def pickBest (cs : List ScriptCategory) :
    ScriptCategory → List ScriptCategory → ScriptCategory
  | best, [] => best
  | best, c :: r =>
    if scTally cs best < scTally cs c then pickBest cs c r else pickBest cs best r

/-- Modelled from the spec: the Script Classifier of the missing
rendering module (§4.1): majority vote over the classifiable code
points, ties broken toward the category of the first classifiable code
point, Latin when there is none. -/
def classify (s : List Nat) : ScriptCategory :=
  match s.filterMap scriptOf with
  | [] => ScriptCategory.latin
  | c0 :: rest => pickBest (c0 :: rest) c0 rest

/-- Code points of a string. -/
def codePoints (s : String) : List Nat := s.toList.map Char.toNat

/-- Default font mapping, from `api-python/FONTS.md` lines 54-66. -/
def defaultFontMapping : ScriptCategory → String
  | ScriptCategory.hebrew => "/usr/share/fonts/truetype/noto/NotoSansHebrew-Regular.ttf"
  | ScriptCategory.arabic => "/usr/share/fonts/truetype/noto/NotoSansArabic-Regular.ttf"
  | ScriptCategory.armenian => "/usr/share/fonts/truetype/noto/NotoSansArmenian-Regular.ttf"
  | ScriptCategory.bengali => "/usr/share/fonts/truetype/noto/NotoSansBengali-Regular.ttf"
  | ScriptCategory.georgian => "/usr/share/fonts/truetype/noto/NotoSansGeorgian-Regular.ttf"
  | ScriptCategory.cjk => "/usr/share/fonts/opentype/noto/NotoSansCJK-Regular.ttc"
  | ScriptCategory.devanagari => "/usr/share/fonts/truetype/noto/NotoSansDevanagari-Regular.ttf"
  | ScriptCategory.greek => "/usr/share/fonts/truetype/noto/NotoSans-Regular.ttf"
  | ScriptCategory.cyrillic => "/usr/share/fonts/truetype/noto/NotoSans-Regular.ttf"
  | ScriptCategory.latin => "/usr/share/fonts/truetype/noto/NotoSans-Regular.ttf"
  | ScriptCategory.fallback => "/usr/share/fonts/truetype/dejavu/DejaVuSans.ttf"

/-- Rendering errors of the spec's external interface (§6). -/
inductive RenderError where
  | emptyInput
  | fontUnavailable
  | invalidOption
deriving DecidableEq

/-- Is the mapping entry for a category present and loadable in the
environment `loads`? -/
def usableFont (m : ScriptCategory → Option String) (loads : String → Bool)
    (c : ScriptCategory) : Bool :=
  match m c with
  | some p => loads p
  | none => false

/-- Modelled from the spec: the fallback leg of the missing Font Resolver
(§4.2, FONTS.md lines 190-195). -/
def resolveFallback (m : ScriptCategory → Option String) (loads : String → Bool) :
    Except RenderError String :=
  match m ScriptCategory.fallback with
  | some q => if loads q then Except.ok q else Except.error RenderError.fontUnavailable
  | none => Except.error RenderError.fontUnavailable

/-- Modelled from the spec: the missing Font Resolver (§4.2): return the
mapping entry when present and loadable, else the Fallback entry, else
fail with FontUnavailable. -/
def resolveFont (m : ScriptCategory → Option String) (loads : String → Bool)
    (cat : ScriptCategory) : Except RenderError String :=
  match m cat with
  | some p => if loads p then Except.ok p else resolveFallback m loads
  | none => resolveFallback m loads

/-- Modelled from the spec: RenderOptions (§3) of the missing rendering
module, with the defaults documented in FONTS.md (lines 258-262 and
487-489). `relative_scaling` is kept as the exact fraction
`rs_num / rs_den`; the spec does not fix minimum and maximum font sizes,
so the model carries them as explicit options. -/
structure RenderOptions where
  width : Nat
  height : Nat
  background_color : String
  colormap : String
  max_words : Nat
  rs_num : Nat
  rs_den : Nat
  random_seed : Nat
  min_font_size : Nat
  max_font_size : Nat
deriving DecidableEq

/-- The documented default configuration: 800 by 400, white background,
viridis colormap, max words 100, relative scaling 1/2, random state 42. -/
def defaultOptions : RenderOptions :=
  { width := 800
    height := 400
    background_color := "white"
    colormap := "viridis"
    max_words := 100
    rs_num := 1
    rs_den := 2
    random_seed := 42
    min_font_size := 4
    max_font_size := 200 }

/-- The two input forms of the render entry point (§6): a text-to-weight
mapping or a raw sentence list. -/
inductive Input where
  | mapping (m : List (List Char × Nat))
  | sentences (ss : List (List Char))

/-- Merge one token into an accumulated list: exact case-sensitive text
match adds the weights, otherwise the token is appended, preserving
first-seen order. -/
def addTok : List (List Char × Nat) → (List Char × Nat) → List (List Char × Nat)
  | [], t => [t]
  | (u, wu) :: r, (t2, wt) => if u = t2 then (u, wu + wt) :: r else (u, wu) :: addTok r (t2, wt)

/-- Duplicate merge over a whole token list. -/
def mergeTokens (l : List (List Char × Nat)) : List (List Char × Nat) := l.foldl addTok []

/-- Modelled from the spec: Token Weighter normalization (§4.3) of the
missing module: trim each text, drop blanks, merge duplicates by summing
weights; sentences get weight 1 each before merging. -/
def normalizeInput : Input → List (List Char × Nat)
  | Input.mapping m =>
    mergeTokens ((m.map (fun p => (jsTrim p.1, p.2))).filter (fun p => !p.1.isEmpty))
  | Input.sentences ss =>
    mergeTokens ((ss.map (fun s => (jsTrim s, 1))).filter (fun p => !p.1.isEmpty))

/-- Priority preorder used by truncation on index-annotated tokens:
larger weight first, ties by smaller first-seen index. -/
def tokLE (a b : Nat × (List Char × Nat)) : Prop :=
  b.2.2 < a.2.2 ∨ (a.2.2 = b.2.2 ∧ a.1 ≤ b.1)

instance : DecidableRel tokLE :=
  fun a b => inferInstanceAs (Decidable (b.2.2 < a.2.2 ∨ (a.2.2 = b.2.2 ∧ a.1 ≤ b.1)))

instance : IsTotal (Nat × (List Char × Nat)) tokLE :=
  ⟨by intro a b; unfold tokLE; omega⟩

instance : IsTrans (Nat × (List Char × Nat)) tokLE :=
  ⟨by intro a b c; unfold tokLE; omega⟩

/-- Modelled from the spec: the truncation policy of the Token Weighter
(§4.3): keep the `maxWords` tokens of largest weight, ties broken by
first-seen order, realized as a stable sort by priority followed by
`take`; the result is also the weight-descending processing order the
Layout Engine needs (§4.4 step 1). -/
def truncateTokens (maxWords : Nat) (toks : List (List Char × Nat)) :
    List (List Char × Nat) :=
  ((toks.enum.insertionSort tokLE).take maxWords).map Prod.snd

/-- Modelled from the spec: the font size formula of §4.4 step 2,
verbatim over the rationals. -/
def fontSizeQ (minS maxS rs w maxw n : ℚ) : ℚ :=
  minS + (maxS - minS) * (rs * (w / maxw) + (1 - rs) * (1 / n))

/-- Integer font size used by the layout: the floor of `fontSizeQ`,
computed with natural-number arithmetic (`rs = rs_num / rs_den`). -/
def fontSizeNat (minS maxS rsn rsd w maxw n : Nat) : Nat :=
  minS + (maxS - minS) * (rsn * w * n + (rsd - rsn) * maxw) / (rsd * maxw * n)

/-- Linear congruential generator driving the randomized placement search
(§4.4 step 3: trial positions seeded by `random_seed`). -/
def lcg (s : Nat) : Nat := (1103515245 * s + 12345) % 2147483648

/-- Axis-aligned bounding box of a placed word. -/
structure Box where
  x : Nat
  y : Nat
  w : Nat
  h : Nat
deriving DecidableEq

/-- Axis-aligned bounding-box intersection test. -/
def overlapsB (a b : Box) : Bool :=
  decide (b.x < a.x + a.w) && decide (a.x < b.x + b.w) &&
    decide (b.y < a.y + a.h) && decide (a.y < b.y + b.h)

/-- Placement attempt budget of §4.4 step 3 (a fixed small bound). -/
def placementBudget : Nat := 30

/-- One candidate position drawn from the generator state: two generator
steps give the x and y coordinates inside the free canvas range. -/
def candBox (rng wCanvas hCanvas w h : Nat) : Box :=
  { x := lcg rng % (wCanvas - w + 1)
    y := lcg (lcg rng) % (hCanvas - h + 1)
    w := w
    h := h }

/-- Modelled from the spec: the placement search (§4.4 step 3): seeded
trial positions inside the canvas until a non-overlapping position is
found or the budget is exhausted; returns the box and the advanced
generator state, or no box when every attempt failed. -/
def tryPlace : Nat → Nat → Nat → Nat → Nat → Nat → List Box → Option Box × Nat
  | 0, rng, _, _, _, _, _ => (none, rng)
  | budget + 1, rng, wCanvas, hCanvas, w, h, placed =>
    if w ≤ wCanvas && h ≤ hCanvas then
      if placed.all (fun p => !(overlapsB (candBox rng wCanvas hCanvas w h) p)) then
        (some (candBox rng wCanvas hCanvas w h), lcg (lcg rng))
      else tryPlace budget (lcg (lcg rng)) wCanvas hCanvas w h placed
    else (none, rng)

/-- A laid-out word (spec data model, §3). -/
structure LaidOutWord where
  text : List Char
  cat : ScriptCategory
  font : String
  size : Nat
  box : Box
  rotation : Nat
  color : Nat
deriving DecidableEq

/-- Deterministic colormap sample by seed and weight rank (§4.4 step 5). -/
def colorPick (seed rank : Nat) : Nat := lcg (seed + rank) % 256

/-- Font size of one token inside a layout run: the blending formula at
the token's weight, the maximum weight and the token count. -/
def tokenSize (opts : RenderOptions) (maxw n wt : Nat) : Nat :=
  fontSizeNat opts.min_font_size opts.max_font_size opts.rs_num opts.rs_den wt maxw n

/-- Modelled from the spec: the Layout Engine main loop (§4.4) of the
missing module: per token, compute the font size from the blending
formula, attempt placement, silently drop the token when the budget is
exhausted and continue with the remaining tokens. -/
def layoutGo (opts : RenderOptions) (maxw n : Nat) :
    List (List Char × Nat × ScriptCategory × String) → Nat → Nat → List Box →
      List LaidOutWord
  | [], _, _, _ => []
  | (t, wt, cat, f) :: rest, rng, rank, placed =>
    match tryPlace placementBudget rng opts.width opts.height
        (tokenSize opts maxw n wt * t.length) (tokenSize opts maxw n wt) placed with
    | (some box, rng2) =>
      { text := t, cat := cat, font := f, size := tokenSize opts maxw n wt, box := box,
        rotation := 0, color := colorPick opts.random_seed rank } ::
        layoutGo opts maxw n rest rng2 (rank + 1) (box :: placed)
    | (none, rng2) => layoutGo opts maxw n rest rng2 (rank + 1) placed

/-- Modelled from the spec: layout of the full resolved token list, with
the maximum weight and the token count feeding the size formula. -/
def layoutWords (opts : RenderOptions)
    (resolved : List (List Char × Nat × ScriptCategory × String)) : List LaidOutWord :=
  layoutGo opts ((resolved.map (fun x => x.2.1)).foldr Nat.max 0) resolved.length resolved
    (lcg opts.random_seed) 0 []

/-- Modelled from the spec: per-token script classification and font
resolution before layout (§2 control flow); a FontUnavailable error
aborts the whole render. -/
def resolveAll (loads : String → Bool) :
    List (List Char × Nat) →
      Except RenderError (List (List Char × Nat × ScriptCategory × String))
  | [] => Except.ok []
  | (t, wt) :: r =>
    match resolveFont (fun c => some (defaultFontMapping c)) loads
        (classify (t.map Char.toNat)) with
    | Except.error e => Except.error e
    | Except.ok f =>
      match resolveAll loads r with
      | Except.error e => Except.error e
      | Except.ok rs => Except.ok ((t, wt, classify (t.map Char.toNat), f) :: rs)

/-- The rendered image (spec data model `RenderedImage`, with the drawn
words kept explicit). -/
structure Image where
  width : Nat
  height : Nat
  background : String
  words : List LaidOutWord
deriving DecidableEq

deriving instance DecidableEq for Except

/-- Known colormap names (FONTS.md lines 399-412 and the word-cloud
page's COLORMAP_OPTIONS). -/
def knownColormaps : List String :=
  ["viridis", "plasma", "rainbow", "cool", "hot", "spring", "summer", "autumn", "winter"]

/-- Known background color names (FONTS.md lines 413-423). -/
def knownBackgrounds : List String :=
  ["white", "black", "navy", "darkblue", "darkgreen", "maroon", "transparent"]

/-- Modelled from the spec: option validation (§6: InvalidOption for
non-positive width or height, unknown colormap, unknown background). -/
def validOptions (o : RenderOptions) : Bool :=
  decide (0 < o.width) && decide (0 < o.height) &&
    knownColormaps.contains o.colormap && knownBackgrounds.contains o.background_color

/-- Modelled from the spec: the pipeline after weighting — truncation,
classification and font resolution, layout, canvas assembly at the
requested dimensions. -/
def renderTokens (loads : String → Bool) (opts : RenderOptions)
    (toks : List (List Char × Nat)) : Except RenderError Image :=
  match resolveAll loads (truncateTokens opts.max_words toks) with
  | Except.error e => Except.error e
  | Except.ok resolved =>
    Except.ok
      { width := opts.width
        height := opts.height
        background := opts.background_color
        words := layoutWords opts resolved }

/-- Modelled from the spec: the render entry point (§6) of the missing
module `api-python/main.py`: normalize the input, fail with EmptyInput
when no tokens remain, validate the options, then run the pipeline. -/
def render (loads : String → Bool) (inp : Input) (opts : RenderOptions) :
    Except RenderError Image :=
  if (normalizeInput inp).isEmpty then Except.error RenderError.emptyInput
  else if !(validOptions opts) then Except.error RenderError.invalidOption
  else renderTokens loads opts (normalizeInput inp)

/-- Modelled from the spec: a deterministic PNG serialization of the
image (signature bytes, dimensions, then every word's draw record). -/
def pngBytes (img : Image) : List Nat :=
  [137, 80, 78, 71, 13, 10, 26, 10] ++ [img.width, img.height] ++
    img.words.foldr (fun w acc =>
      w.size :: w.box.x :: w.box.y :: w.box.w :: w.box.h :: w.rotation :: w.color ::
        (w.text.map Char.toNat ++ acc)) []

/-- PNG bytes of one render call. -/
def renderPng (loads : String → Bool) (inp : Input) (opts : RenderOptions) :
    Except RenderError (List Nat) :=
  Except.map pngBytes (render loads inp opts)

/-- HTTP status mapping documented in FONTS.md (lines 436-449): empty
input and invalid parameters give 400 Bad Request, word-cloud generation
and font-loading failures give 500. -/
def apiStatus : Except RenderError Image → Nat
  | Except.ok _ => 200
  | Except.error RenderError.emptyInput => 400
  | Except.error RenderError.invalidOption => 400
  | Except.error RenderError.fontUnavailable => 500

/-- Glyph bounding-box area of a laid-out word. -/
def glyphArea (w : LaidOutWord) : Nat := w.box.w * w.box.h

/-- Glyph-area comparison of the two words with the given texts in a
render result; false when either word is absent or the render failed. -/
def areaCheck (res : Except RenderError Image) (t1 t2 : List Char) : Bool :=
  match res with
  | Except.ok img =>
    match img.words.find? (fun w => w.text == t1), img.words.find? (fun w => w.text == t2) with
    | some w1, some w2 => decide (glyphArea w1 < glyphArea w2)
    | _, _ => false
  | Except.error _ => false

/-! ### List scanning lemmas -/

/-- C10: the admin panel's delete-all request is independent of the
entered credentials — `handleDeleteAll` produces the identical request
for any two credential pairs, carrying no headers and no body — while
`handleLogin` with unset environment variables authenticates exactly the
pair `login_admin` / `amazing_password_123`. -/
theorem claim10_delete_auth :
    (∀ dev : Bool, ∀ u1 p1 u2 p2 : String,
      handleDeleteAll dev u1 p1 = handleDeleteAll dev u2 p2 ∧
      (handleDeleteAll dev u1 p1).headers = [] ∧
      (handleDeleteAll dev u1 p1).body = none) ∧
    (∀ u p : String, handleLogin u p none none = true ↔
      (u = "login_admin" ∧ p = "amazing_password_123")) := by
  constructor
  · intro dev u1 p1 u2 p2
    exact ⟨rfl, rfl, rfl⟩
  · intro u p
    simp [handleLogin, validUsername, validPassword]

/-- C1: determinism and idempotence of rendering — with the same font
environment, the same input mapping and the same RenderOptions
(including `random_seed`, default 42), two render calls produce
byte-identical PNG output. -/
theorem claim1_deterministic (loads1 loads2 : String → Bool) (inp1 inp2 : Input)
    (opts1 opts2 : RenderOptions) (henv : loads1 = loads2) (hinp : inp1 = inp2)
    (hopts : opts1 = opts2) :
    renderPng loads1 inp1 opts1 = renderPng loads2 inp2 opts2 := by
  subst henv
  subst hinp
  subst hopts
  rfl

/-- C1 witness: two identical render calls at a concrete input. -/
theorem claim1_witness :
    renderPng (fun _ => true) (Input.mapping [("a".toList, 1)]) defaultOptions =
      renderPng (fun _ => true) (Input.mapping [("a".toList, 1)]) defaultOptions :=
  claim1_deterministic _ _ _ _ _ _ rfl rfl rfl

/-- C4: every input that normalizes to zero tokens — in particular the
empty mapping and the empty sentence list — makes `render` fail with
EmptyInput (an `Except.error`, so no partial output exists), and the API
status mapping sends this to 400 Bad Request. -/
theorem claim4_empty_input (loads : String → Bool) (inp : Input) (opts : RenderOptions)
    (h : normalizeInput inp = []) :
    render loads inp opts = Except.error RenderError.emptyInput ∧
      apiStatus (render loads inp opts) = 400 := by
  have h2 : render loads inp opts = Except.error RenderError.emptyInput := by
    simp [render, h]
  exact ⟨h2, by rw [h2]; rfl⟩

/-- C4 witness: the empty mapping raises EmptyInput and maps to 400. -/
theorem claim4_witness :
    render (fun _ => true) (Input.mapping []) defaultOptions =
        Except.error RenderError.emptyInput ∧
      apiStatus (render (fun _ => true) (Input.mapping []) defaultOptions) = 400 :=
  claim4_empty_input _ _ _ (by decide)

/-- C3: the Font Resolver returns the mapping entry of the requested
category when it is present and loadable; when that entry is unusable it
returns the Fallback entry whenever that one is present and loadable;
and it fails with FontUnavailable exactly when both the category's entry
and the Fallback entry are unusable. -/
theorem claim3_font_resolver (m : ScriptCategory → Option String) (loads : String → Bool)
    (cat : ScriptCategory) :
    (∀ p, m cat = some p → loads p = true → resolveFont m loads cat = Except.ok p) ∧
    (usableFont m loads cat = false → ∀ q, m ScriptCategory.fallback = some q →
      loads q = true → resolveFont m loads cat = Except.ok q) ∧
    (resolveFont m loads cat = Except.error RenderError.fontUnavailable ↔
      usableFont m loads cat = false ∧ usableFont m loads ScriptCategory.fallback = false) := by
  have hfb : (resolveFallback m loads = Except.error RenderError.fontUnavailable) ↔
      usableFont m loads ScriptCategory.fallback = false := by
    cases hf : m ScriptCategory.fallback with
    | none => simp [resolveFallback, hf, usableFont]
    | some q => cases hlq : loads q <;> simp [resolveFallback, hf, hlq, usableFont]
  refine ⟨?_, ?_, ?_⟩
  · intro p hp hl
    simp [resolveFont, hp, hl]
  · intro hun q hq hl
    cases hm : m cat with
    | none => simp [resolveFont, hm, resolveFallback, hq, hl]
    | some p =>
      have hlp : loads p = false := by
        have h2 := hun
        simp [usableFont, hm] at h2
        exact h2
      simp [resolveFont, hm, hlp, resolveFallback, hq, hl]
  · cases hm : m cat with
    | none => simpa [resolveFont, hm, usableFont] using hfb
    | some p =>
      cases hlp : loads p with
      | true => simp [resolveFont, hm, hlp, usableFont]
      | false => simpa [resolveFont, hm, hlp, usableFont] using hfb

/-- C3 witness: the Hebrew entry of the default mapping resolves to its
own font path in an environment where every font loads. -/
theorem claim3_witness :
    resolveFont (fun c => some (defaultFontMapping c)) (fun _ => true) ScriptCategory.hebrew =
      Except.ok "/usr/share/fonts/truetype/noto/NotoSansHebrew-Regular.ttf" :=
  (claim3_font_resolver (fun c => some (defaultFontMapping c)) (fun _ => true)
    ScriptCategory.hebrew).1 _ rfl rfl

theorem scTallyNotMem (cs : List ScriptCategory) (c : ScriptCategory) (h : c ∉ cs) :
    scTally cs c = 0 := by
  induction cs with
  | nil => rfl
  | cons d r ih =>
    have hdc : ¬ d = c := fun he => h (by simp [he])
    have hr : scTally r c = 0 := ih (fun hc => h (by simp [hc]))
    simp [scTally, hdc, hr]

theorem pickBestLe (cs : List ScriptCategory) (cands : List ScriptCategory) :
    ∀ best, scTally cs best ≤ scTally cs (pickBest cs best cands) ∧
      ∀ c ∈ cands, scTally cs c ≤ scTally cs (pickBest cs best cands) := by
  induction cands with
  | nil =>
    intro best
    exact ⟨le_refl _, by intro c hc; simp at hc⟩
  | cons c r ih =>
    intro best
    by_cases h : scTally cs best < scTally cs c
    · simp only [pickBest, if_pos h]
      refine ⟨le_trans (le_of_lt h) (ih c).1, ?_⟩
      intro d hd
      rcases List.mem_cons.mp hd with h2 | h2
      · subst h2
        exact (ih d).1
      · exact (ih c).2 d h2
    · simp only [pickBest, if_neg h]
      refine ⟨(ih best).1, ?_⟩
      intro d hd
      rcases List.mem_cons.mp hd with h2 | h2
      · subst h2
        exact le_trans (le_of_not_lt h) (ih best).1
      · exact (ih best).2 d h2

theorem pickBestStay (cs : List ScriptCategory) (cands : List ScriptCategory) :
    ∀ best, (∀ c ∈ cands, scTally cs c ≤ scTally cs best) → pickBest cs best cands = best := by
  induction cands with
  | nil => intro best _; rfl
  | cons c r ih =>
    intro best h
    have hc : ¬ scTally cs best < scTally cs c := not_lt.mpr (h c (by simp))
    simp only [pickBest, if_neg hc]
    exact ih best (fun d hd => h d (by simp [hd]))

/-- C2: for every non-empty code-point list, the Script Classifier
assigns Latin when no code point is classifiable; otherwise its result
has the maximal tally over all categories, and whenever the category of
the first classifiable code point ties for the maximum, that category is
returned. -/
theorem claim2_classifier (s : List Nat) (hne : s ≠ []) :
    (s.filterMap scriptOf = [] → classify s = ScriptCategory.latin) ∧
    (∀ c, scTally (s.filterMap scriptOf) c ≤ scTally (s.filterMap scriptOf) (classify s)) ∧
    (∀ c0 rest, s.filterMap scriptOf = c0 :: rest →
      (∀ c, scTally (s.filterMap scriptOf) c ≤ scTally (s.filterMap scriptOf) c0) →
      classify s = c0) := by
  refine ⟨?_, ?_, ?_⟩
  · intro h
    simp [classify, h]
  · intro c
    cases hcs : s.filterMap scriptOf with
    | nil => simp [classify, hcs, scTally]
    | cons c0 rest =>
      have hcl : classify s = pickBest (c0 :: rest) c0 rest := by
        simp [classify, hcs]
      rw [hcl]
      by_cases hc : c ∈ c0 :: rest
      · rcases List.mem_cons.mp hc with h2 | h2
        · subst h2
          exact (pickBestLe _ rest c).1
        · exact (pickBestLe _ rest c0).2 c h2
      · rw [scTallyNotMem _ _ hc]
        exact Nat.zero_le _
  · intro c0 rest hcs hmax
    have hcl : classify s = pickBest (c0 :: rest) c0 rest := by
      simp [classify, hcs]
    rw [hcl]
    apply pickBestStay
    intro c hc2
    have h3 := hmax c
    rwa [hcs] at h3

/-- C2 witness: a concrete instance of classifier maximality on the
fixture string `Hello`. -/
theorem claim2_witness :
    scTally ((codePoints "Hello").filterMap scriptOf) ScriptCategory.hebrew ≤
      scTally ((codePoints "Hello").filterMap scriptOf) (classify (codePoints "Hello")) :=
  (claim2_classifier (codePoints "Hello") (by decide)).2.1 ScriptCategory.hebrew

theorem resolveFontOk (loads : String → Bool) (cat : ScriptCategory)
    (h : loads (defaultFontMapping ScriptCategory.fallback) = true) :
    ∃ p, resolveFont (fun c => some (defaultFontMapping c)) loads cat = Except.ok p := by
  cases hl : loads (defaultFontMapping cat) with
  | true => exact ⟨defaultFontMapping cat, by simp [resolveFont, hl]⟩
  | false =>
    exact ⟨defaultFontMapping ScriptCategory.fallback,
      by simp [resolveFont, hl, resolveFallback, h]⟩

theorem resolveAllOk (loads : String → Bool)
    (h : loads (defaultFontMapping ScriptCategory.fallback) = true) :
    ∀ l, ∃ rs, resolveAll loads l = Except.ok rs := by
  intro l
  induction l with
  | nil => exact ⟨[], rfl⟩
  | cons p r ih =>
    obtain ⟨t, wt⟩ := p
    obtain ⟨f, hf⟩ := resolveFontOk loads (classify (t.map Char.toNat)) h
    obtain ⟨rs, hrs⟩ := ih
    exact ⟨(t, wt, classify (t.map Char.toNat), f) :: rs, by simp [resolveAll, hf, hrs]⟩

/-- C6 (counterexample): the claim fails for the RenderOptions value
with width 0 — rendering a non-blank input then yields the InvalidOption
error (the spec's validation error for non-positive dimensions), not an
image of the requested size. -/
theorem claim6_counterexample :
    render (fun _ => true) (Input.mapping [("a".toList, 1)])
      { defaultOptions with width := 0 } = Except.error RenderError.invalidOption := by
  decide

/-- C6 (amended): for every input with at least one non-blank entry and
every RenderOptions value that passes validation (positive dimensions,
known colormap and background), with the fallback font loadable,
rendering returns an image whose dimensions equal exactly the requested
width and height (defaults 800 by 400). -/
theorem claim6_amended (loads : String → Bool) (inp : Input) (opts : RenderOptions)
    (h1 : validOptions opts = true) (h2 : normalizeInput inp ≠ [])
    (h3 : loads (defaultFontMapping ScriptCategory.fallback) = true) :
    ∃ img, render loads inp opts = Except.ok img ∧
      img.width = opts.width ∧ img.height = opts.height := by
  obtain ⟨rs, hrs⟩ := resolveAllOk loads h3 (truncateTokens opts.max_words (normalizeInput inp))
  have hie : (normalizeInput inp).isEmpty = false := by
    cases hni : normalizeInput inp with
    | nil => exact absurd hni h2
    | cons a b => rfl
  have hrender : render loads inp opts = Except.ok
      { width := opts.width
        height := opts.height
        background := opts.background_color
        words := layoutWords opts rs } := by
    simp [render, hie, h1, renderTokens, hrs]
  exact ⟨_, hrender, rfl, rfl⟩

/-- C6 witness: the default options on a one-token mapping give an
800 by 400 image. -/
theorem claim6_witness :
    ∃ img, render (fun _ => true) (Input.mapping [("a".toList, 1)]) defaultOptions =
        Except.ok img ∧
      img.width = defaultOptions.width ∧ img.height = defaultOptions.height :=
  claim6_amended (fun _ => true) (Input.mapping [("a".toList, 1)]) defaultOptions
    (by decide) (by decide) rfl

theorem tryPlaceSpec : ∀ budget rng wc hc w h : Nat, ∀ placed : List Box, ∀ box : Box,
    ∀ rng2 : Nat, tryPlace budget rng wc hc w h placed = (some box, rng2) →
    ∀ p ∈ placed, overlapsB box p = false := by
  intro budget
  induction budget with
  | zero =>
    intro rng wc hc w h placed box rng2 hp
    simp [tryPlace] at hp
  | succ b ih =>
    intro rng wc hc w h placed box rng2 hp p hmem
    simp only [tryPlace] at hp
    by_cases hg : (decide (w ≤ wc) && decide (h ≤ hc)) = true
    · rw [if_pos hg] at hp
      by_cases hall : placed.all (fun q => !(overlapsB (candBox rng wc hc w h) q)) = true
      · rw [if_pos hall] at hp
        have hbox : candBox rng wc hc w h = box := by
          have h2 := congrArg Prod.fst hp
          simpa using h2
        have h3 := List.all_eq_true.mp hall p hmem
        rw [hbox] at h3
        simpa using h3
      · rw [if_neg hall] at hp
        exact ih _ _ _ _ _ _ _ _ hp p hmem
    · rw [if_neg hg] at hp
      simp at hp

theorem layoutGoPlacedFree (opts : RenderOptions) (maxw n : Nat) :
    ∀ l : List (List Char × Nat × ScriptCategory × String), ∀ rng rank : Nat,
    ∀ placed : List Box, ∀ w0 ∈ layoutGo opts maxw n l rng rank placed,
    ∀ p ∈ placed, overlapsB w0.box p = false := by
  intro l
  induction l with
  | nil =>
    intro rng rank placed w0 hw
    simp [layoutGo] at hw
  | cons tok r ih =>
    intro rng rank placed w0 hw p hp
    obtain ⟨t, wt, cat, f⟩ := tok
    simp only [layoutGo] at hw
    rcases htp : tryPlace placementBudget rng opts.width opts.height
        (tokenSize opts maxw n wt * t.length) (tokenSize opts maxw n wt) placed with ⟨ob, rng2⟩
    rw [htp] at hw
    cases ob with
    | some box =>
      simp only [List.mem_cons] at hw
      rcases hw with hw | hw
      · subst hw
        exact tryPlaceSpec _ _ _ _ _ _ _ _ _ htp p hp
      · exact ih _ _ (box :: placed) w0 hw p (List.mem_cons_of_mem box hp)
    | none => exact ih _ _ placed w0 hw p hp

theorem layoutGoPairwise (opts : RenderOptions) (maxw n : Nat) :
    ∀ l : List (List Char × Nat × ScriptCategory × String), ∀ rng rank : Nat,
    ∀ placed : List Box,
    List.Pairwise (fun a b : LaidOutWord => overlapsB b.box a.box = false)
      (layoutGo opts maxw n l rng rank placed) := by
  intro l
  induction l with
  | nil =>
    intro rng rank placed
    simp [layoutGo]
  | cons tok r ih =>
    intro rng rank placed
    obtain ⟨t, wt, cat, f⟩ := tok
    simp only [layoutGo]
    rcases htp : tryPlace placementBudget rng opts.width opts.height
        (tokenSize opts maxw n wt * t.length) (tokenSize opts maxw n wt) placed with ⟨ob, rng2⟩
    cases ob with
    | some box =>
      refine List.Pairwise.cons ?_ (ih _ _ (box :: placed))
      intro b hb
      exact layoutGoPlacedFree opts maxw n r rng2 (rank + 1) (box :: placed) b hb box
        (List.mem_cons_self box placed)
    | none => exact ih _ _ placed

theorem overlapsBSymm (a b : Box) : overlapsB a b = overlapsB b a := by
  rw [Bool.eq_iff_iff]
  simp only [overlapsB, Bool.and_eq_true, decide_eq_true_eq]
  tauto

theorem layoutGoSub (opts : RenderOptions) (maxw n : Nat) :
    ∀ l : List (List Char × Nat × ScriptCategory × String), ∀ rng rank : Nat,
    ∀ placed : List Box,
    List.Sublist ((layoutGo opts maxw n l rng rank placed).map (fun w => w.text))
      (l.map (fun x => x.1)) := by
  intro l
  induction l with
  | nil =>
    intro rng rank placed
    simp [layoutGo]
  | cons tok r ih =>
    intro rng rank placed
    obtain ⟨t, wt, cat, f⟩ := tok
    simp only [layoutGo]
    rcases htp : tryPlace placementBudget rng opts.width opts.height
        (tokenSize opts maxw n wt * t.length) (tokenSize opts maxw n wt) placed with ⟨ob, rng2⟩
    cases ob with
    | some box =>
      simp only [List.map_cons]
      exact List.Sublist.cons₂ t (ih _ _ (box :: placed))
    | none =>
      simp only [List.map_cons]
      exact List.Sublist.cons t (ih _ _ placed)

/-- C7: for every post-truncation resolved token collection and every
RenderOptions, the Layout Engine's output has no two words with
overlapping bounding boxes, and its word texts form a subsequence of the
input tokens — a token that cannot be placed is simply absent while the
rest are still processed; the layout function is total, so no error is
raised and the render is never aborted. -/
theorem claim7_layout (opts : RenderOptions)
    (resolved : List (List Char × Nat × ScriptCategory × String)) :
    List.Pairwise (fun a b : LaidOutWord => overlapsB a.box b.box = false)
      (layoutWords opts resolved) ∧
    List.Sublist ((layoutWords opts resolved).map (fun w => w.text))
      (resolved.map (fun x => x.1)) := by
  constructor
  · have h := layoutGoPairwise opts ((resolved.map (fun x => x.2.1)).foldr Nat.max 0)
      resolved.length resolved (lcg opts.random_seed) 0 []
    exact h.imp (fun hab => (overlapsBSymm _ _).trans hab)
  · exact layoutGoSub opts _ _ resolved _ _ _

/-- C5: when the number of distinct tokens exceeds `maxWords`, truncation
keeps exactly `maxWords` tokens, the kept tokens strictly beat every
discarded token (larger weight, or equal weight and earlier first-seen
position), and the pipeline after weighting depends only on the
truncation result, so discarded tokens have no effect on the layout. -/
theorem claim5_truncation (toks : List (List Char × Nat)) (m : Nat)
    (h : m < toks.length) :
    (truncateTokens m toks).length = m ∧
    (∃ kept dropped : List (Nat × (List Char × Nat)),
      List.Perm toks.enum (kept ++ dropped) ∧
      truncateTokens m toks = kept.map Prod.snd ∧
      kept.length = m ∧
      ∀ a ∈ kept, ∀ b ∈ dropped,
        b.2.2 < a.2.2 ∨ (a.2.2 = b.2.2 ∧ a.1 < b.1)) ∧
    (∀ loads : String → Bool, ∀ opts : RenderOptions, ∀ toks2 : List (List Char × Nat),
      opts.max_words = m → truncateTokens m toks2 = truncateTokens m toks →
      renderTokens loads opts toks2 = renderTokens loads opts toks) := by
  have hperm := List.perm_insertionSort tokLE toks.enum
  have hsorted := List.sorted_insertionSort tokLE toks.enum
  have hlen : ((toks.enum).insertionSort tokLE).length = toks.length := by
    rw [List.length_insertionSort, List.enum_length]
  refine ⟨?_, ?_, ?_⟩
  · simp only [truncateTokens, List.length_map, List.length_take, hlen]
    omega
  · refine ⟨((toks.enum).insertionSort tokLE).take m,
      ((toks.enum).insertionSort tokLE).drop m, ?_, rfl, ?_, ?_⟩
    · rw [List.take_append_drop]
      exact hperm.symm
    · rw [List.length_take, hlen]
      omega
    · have hpw : List.Pairwise tokLE
          (((toks.enum).insertionSort tokLE).take m ++
            ((toks.enum).insertionSort tokLE).drop m) := by
        rw [List.take_append_drop]
        exact hsorted
      have hle := (List.pairwise_append.mp hpw).2.2
      have hne0 : List.Pairwise (fun a b : Nat × (List Char × Nat) => a.1 ≠ b.1)
          toks.enum := by
        have h2 := List.nodup_enum_map_fst toks
        exact List.pairwise_map.mp h2
      have hne : List.Pairwise (fun a b : Nat × (List Char × Nat) => a.1 ≠ b.1)
          (((toks.enum).insertionSort tokLE).take m ++
            ((toks.enum).insertionSort tokLE).drop m) := by
        rw [List.take_append_drop]
        exact hne0.perm hperm.symm (fun hxy => Ne.symm hxy)
      have hne2 := (List.pairwise_append.mp hne).2.2
      intro a ha b hb
      have h1 := hle a ha b hb
      have h2 := hne2 a ha b hb
      unfold tokLE at h1
      omega
  · intro loads opts toks2 hopts heq
    simp [renderTokens, hopts, heq]

/-- C5 witness: three distinct tokens truncated to two keep exactly
two. -/
theorem claim5_witness :
    (truncateTokens 2 [("a".toList, 1), ("b".toList, 5), ("c".toList, 5)]).length = 2 :=
  (claim5_truncation [("a".toList, 1), ("b".toList, 5), ("c".toList, 5)] 2 (by decide)).1

/-- C8: the integer font size used by the layout is exactly the floor of
the spec's blending formula; the formula itself is strictly monotone in
the weight whenever `relative_scaling` is positive and the size range is
non-degenerate; and on the concrete input mapping a to 1 and b to 100
with default options, the rendered glyph bounding box of b has strictly
larger area than that of a. -/
theorem claim8_font_size :
    (∀ minS maxS rsn rsd w maxw n : Nat, minS ≤ maxS → rsn ≤ rsd → 0 < rsd → 0 < maxw →
      0 < n → fontSizeNat minS maxS rsn rsd w maxw n =
        ⌊fontSizeQ (minS : ℚ) (maxS : ℚ) ((rsn : ℚ) / (rsd : ℚ)) (w : ℚ) (maxw : ℚ)
          (n : ℚ)⌋₊) ∧
    (∀ minS maxS rs w1 w2 maxw n : ℚ, minS < maxS → 0 < rs → 0 < maxw → w1 < w2 →
      fontSizeQ minS maxS rs w1 maxw n < fontSizeQ minS maxS rs w2 maxw n) ∧
    areaCheck (render (fun _ => true) (Input.mapping [("a".toList, 1), ("b".toList, 100)])
      defaultOptions) ("a".toList) ("b".toList) = true := by
  refine ⟨?_, ?_, by decide⟩
  · intro minS maxS rsn rsd w maxw n h1 h2 h3 h4 h5
    have hrsd : (rsd : ℚ) ≠ 0 := by positivity
    have hmw : (maxw : ℚ) ≠ 0 := by positivity
    have hnq : (n : ℚ) ≠ 0 := by positivity
    have hkey : fontSizeQ (minS : ℚ) (maxS : ℚ) ((rsn : ℚ) / (rsd : ℚ)) (w : ℚ) (maxw : ℚ)
        (n : ℚ) =
        (((maxS - minS) * (rsn * w * n + (rsd - rsn) * maxw) : ℕ) : ℚ) /
          (((rsd * maxw * n : ℕ) : ℚ)) + (minS : ℚ) := by
      unfold fontSizeQ
      push_cast [Nat.cast_sub h1, Nat.cast_sub h2]
      field_simp
      ring
    rw [hkey, Nat.floor_add_nat (by positivity) minS, Nat.floor_div_eq_div]
    simp only [fontSizeNat]
    omega
  · intro minS maxS rs w1 w2 maxw n h1 h2 h3 h4
    unfold fontSizeQ
    have h5 : w1 / maxw < w2 / maxw := (div_lt_div_iff_of_pos_right h3).mpr h4
    have h6 : rs * (w1 / maxw) + (1 - rs) * (1 / n) < rs * (w2 / maxw) + (1 - rs) * (1 / n) :=
      add_lt_add_right (mul_lt_mul_of_pos_left h5 h2) _
    exact add_lt_add_left (mul_lt_mul_of_pos_left h6 (sub_pos.mpr h1)) _

/-- C8 witness: the floor relation at the concrete default parameters
and the weight 100 of token b. -/
theorem claim8_witness :
    fontSizeNat 4 200 1 2 100 100 2 =
      ⌊fontSizeQ ((4 : ℕ) : ℚ) ((200 : ℕ) : ℚ) (((1 : ℕ) : ℚ) / ((2 : ℕ) : ℚ))
        ((100 : ℕ) : ℚ) ((100 : ℕ) : ℚ) ((2 : ℕ) : ℚ)⌋₊ :=
  claim8_font_size.1 4 200 1 2 100 100 2 (by norm_num) (by norm_num) (by norm_num)
    (by norm_num) (by norm_num)
